import Mathlib

/-!
Shallow embedding of the cancellable HTTP client of `vite-react-electron`
(`Http` class with `request` / `dispose`, the `isResponseObject` envelope
check, and the `cancel` callback of the `useApi` hook), with theorems
settling the specification claims about it.

JavaScript response bodies are modelled by `Body` (JSON values plus
`undefined`); property access and `typeof` follow JS semantics, in
particular reading a property of `null` throws a `TypeError`.  The
asynchronous `request` is split into its synchronous dispatch step
(`Http.requestDispatch`: id assignment, token creation, registry insert,
config merge) and its settlement step (`Http.settle`: the `.then`/`.catch`
chain run on a transport outcome).  Cancellation side effects are
reified as lists of `CancelCall` events.
-/

/-- JS runtime values that can appear as a response body: the JSON values
plus `undefined`.  Object fields are an association list with distinct keys
(as produced by JSON parsing); lookup takes the first match. -/
inductive Body where
  | null
  | undefinedV
  | str (s : String)
  | num (n : Int)
  | boolV (b : Bool)
  | arr (elems : List Body)
  | obj (fields : List (String × Body))
deriving Repr

/-- The JS `typeof` operator on `Body` values.  Note `typeof null` is
`"object"`, and arrays are objects too. -/
def jsTypeof : Body → String
  | .null => "object"
  | .undefinedV => "undefined"
  | .str _ => "string"
  | .num _ => "number"
  | .boolV _ => "boolean"
  | .arr _ => "object"
  | .obj _ => "object"

/-- Errors a JS expression can throw: a `TypeError` (from property access
on `null`/`undefined`) or an arbitrary thrown value. -/
inductive JsError where
  | typeError (msg : String)
  | thrown (v : Body)
deriving Repr

/-- JS property read `v[p]`: throws `TypeError` on `null`/`undefined`;
on objects returns the field or `undefined`; on primitives and arrays the
named properties read here (`result`, `data`) are absent, giving
`undefined`. -/
def getProp : Body → String → Except JsError Body
  | .null, p => .error (.typeError ("Cannot read properties of null (reading " ++ p ++ ")"))
  | .undefinedV, p => .error (.typeError ("Cannot read properties of undefined (reading " ++ p ++ ")"))
  | .obj fields, p => .ok ((fields.lookup p).getD .undefinedV)
  | .arr _, _ => .ok .undefinedV
  | .str _, _ => .ok .undefinedV
  | .num _, _ => .ok .undefinedV
  | .boolV _, _ => .ok .undefinedV

/-- `isResponseObject(obj)`: `typeof obj === "object" && typeof obj.result === "number"`.
The conjunction short-circuits, so the property read only happens when the
first test passed; on `null` that read throws. -/
def isResponseObject (obj : Body) : Except JsError Bool :=
  if jsTypeof obj = "object" then
    (getProp obj "result").map (fun r => jsTypeof r = "number")
  else
    .ok false

/-- JS strict equality `b === n` between a value and a number literal:
false whenever `b` is not a number. -/
def strictEqNum (b : Body) (n : Int) : Bool :=
  match b with
  | .num m => m == n
  | _ => false

/-- Numeric value of a `Body`, used where the source passes
`resp.data.result` as the `HttpError` code. -/
def asNumber : Body → Option Int
  | .num n => some n
  | _ => none

/-- The `HttpError` class: a message and an optional numeric code. -/
structure HttpError where
  message : String
  code : Option Int
deriving Repr, DecidableEq

/-- A `CancelTokenSource` created by `CancelToken.source()`, identified by
the request id it was created for (fresh per auto-registered request). -/
structure CancelTokenSource where
  id : Nat
deriving Repr, DecidableEq

/-- A cancel token: either supplied by the caller in the options, or the
`.token` of an auto-created source. -/
inductive CancelToken where
  | callerToken (id : Nat)
  | sourceToken (id : Nat)
deriving Repr, DecidableEq

/-- The fields of `AxiosRequestConfig` relevant to this client: the ones
the dispatch step sets (`method`, `url`, `timeout`, `cancelToken`) plus
representative caller-controlled fields (`data`, `headers`).  `none` means
the field is absent from the config object. -/
structure AxiosRequestConfig where
  method : Option String
  url : Option String
  timeout : Option Nat
  cancelToken : Option CancelToken
  data : Option Body
  headers : Option (List (String × String))
deriving Repr

/-- The empty options object `{}`. -/
def emptyConfig : AxiosRequestConfig :=
  ⟨none, none, none, none, none, none⟩

/-- `Map.set` on the registry: update in place when the key is present,
otherwise append (JS `Map` iteration is in insertion order). -/
def mapSet : List (Nat × CancelTokenSource) → Nat → CancelTokenSource →
    List (Nat × CancelTokenSource)
  | [], k, v => [(k, v)]
  | p :: rest, k, v =>
      if p.1 = k then (k, v) :: rest else p :: mapSet rest k v

/-- `Map.delete` on the registry. -/
def mapDelete : List (Nat × CancelTokenSource) → Nat → List (Nat × CancelTokenSource)
  | [], _ => []
  | p :: rest, k => if p.1 = k then mapDelete rest k else p :: mapDelete rest k

/-- State of one `Http` instance: the `currentId` counter and the
`requestMap` registry from request id to cancel-token source. -/
structure Http where
  currentId : Nat
  requestMap : List (Nat × CancelTokenSource)
deriving Repr, DecidableEq

/-- A fresh `new Http()`: counter `0`, empty registry. -/
def Http.init : Http := ⟨0, []⟩

/-- One observable cancellation: `source.cancel(message)`. -/
structure CancelCall where
  source : CancelTokenSource
  message : Option String
deriving Repr, DecidableEq

/-- `dispose(message?)`: `this.requestMap.forEach(source => source.cancel(message))`.
Returns the unchanged state and the list of cancel calls performed, one per
registry entry in iteration order. -/
def Http.dispose (st : Http) (message : Option String) : Http × List CancelCall :=
  (st, st.requestMap.map (fun p => ⟨p.2, message⟩))

/-- Result of the synchronous dispatch step of `request`. -/
structure DispatchOut where
  state : Http
  requestID : Nat
  effectiveOptions : AxiosRequestConfig
  config : AxiosRequestConfig
deriving Repr

/-- The synchronous part of `Http.request`: pre-increment `currentId`,
take it as `requestID`; keep a caller-supplied `cancelToken`, otherwise
create a fresh source, register it under `requestID` and use its token;
then build the dispatched config `{ method, url, timeout: 60000, ...options }`
(an object-spread shallow merge: every field present in the mutated
options wins over the three defaults). -/
def Http.requestDispatch (st : Http) (method url : String)
    (options : AxiosRequestConfig) : DispatchOut :=
  let currentId1 := st.currentId + 1
  let requestID := currentId1
  let tokenAndMap : CancelToken × List (Nat × CancelTokenSource) :=
    match options.cancelToken with
    | some t => (t, st.requestMap)
    | none => (CancelToken.sourceToken requestID,
        mapSet st.requestMap requestID ⟨requestID⟩)
  let options1 : AxiosRequestConfig :=
    ⟨options.method, options.url, options.timeout, some tokenAndMap.1,
      options.data, options.headers⟩
  let config : AxiosRequestConfig :=
    ⟨some (options1.method.getD method),
      some (options1.url.getD url),
      some (options1.timeout.getD 60000),
      options1.cancelToken,
      options1.data,
      options1.headers⟩
  ⟨⟨currentId1, tokenAndMap.2⟩, requestID, options1, config⟩

/-- What the `.then` handler does with the response body after its
registry delete: resolve with a value, or return a rejected promise
carrying an `HttpError`. -/
inductive ThenOut where
  | resolvedWith (v : Body)
  | rejectedError (e : HttpError)
deriving Repr

/-- Body of the `.then` handler after `requestMap.delete`:
if `isResponseObject(resp.data)` then `result === -1` resolves with
`resp.data.data`, otherwise rejects with `new HttpError("请求错误", resp.data.result)`;
a non-envelope body resolves as-is.  A thrown `TypeError` (from the shape
check on `null`) surfaces as `.error`. -/
def thenBody (data : Body) : Except JsError ThenOut := do
  let isResp ← isResponseObject data
  if isResp then
    let r ← getProp data "result"
    if strictEqNum r (-1) then
      let d ← getProp data "data"
      pure (ThenOut.resolvedWith d)
    else
      pure (ThenOut.rejectedError ⟨"请求错误", asNumber r⟩)
  else
    pure (ThenOut.resolvedWith data)

/-- A transport-level failure as axios hands it to `.catch`:
a cancellation (`axios.isCancel` true, carrying the cancel message), an
axios error (`axios.isAxiosError` true, with optional `response.statusText`
and a `message`), or any other thrown value. -/
inductive TransportErr where
  | cancelled (message : Option String)
  | axiosError (statusText : Option String) (message : String)
  | thrownOther (e : JsError)
deriving Repr

/-- Outcome of the underlying `http.request` call. -/
inductive TransportOutcome where
  | success (data : Body)
  | failure (e : TransportErr)
deriving Repr

/-- What can reach the `.catch` handler: a transport failure, an error
thrown inside the `.then` handler, or the `HttpError` rejection the
`.then` handler returned. -/
inductive CatchInput where
  | fromTransport (e : TransportErr)
  | thrownInThen (e : JsError)
  | httpErrorFromThen (e : HttpError)
deriving Repr

/-- How the promise returned by `request` settles. -/
inductive Settlement where
  | resolved (v : Body)
  | rejectedHttpError (e : HttpError)
  | rejectedRaw (e : JsError)
deriving Repr

/-- JS `a || b` on an optional status text: an absent or empty (falsy)
status text falls through to `b`. -/
def orFalsy (a : Option String) (b : String) : String :=
  match a with
  | some s => if s = "" then b else s
  | none => b

/-- Body of the `.catch` handler after its `requestMap.delete`:
`axios.isCancel` rejects with `HttpError("请求被取消")` (no code, fixed
message — the cancel message itself is not propagated); `axios.isAxiosError`
rejects with `HttpError(err.response?.statusText || err.message)` (no code);
anything else (an `HttpError` re-rejected from `.then`, a `TypeError`
thrown there, or any other value) is rejected unchanged. -/
def catchBody : CatchInput → Settlement
  | .fromTransport (.cancelled _) => .rejectedHttpError ⟨"请求被取消", none⟩
  | .fromTransport (.axiosError statusText message) =>
      .rejectedHttpError ⟨orFalsy statusText message, none⟩
  | .fromTransport (.thrownOther e) => .rejectedRaw e
  | .thrownInThen e => .rejectedRaw e
  | .httpErrorFromThen e => .rejectedHttpError e

/-- Settlement step of `request`: the `.then(...).catch(...)` chain run on
a transport outcome.  On transport success the `.then` handler first
deletes the registry entry, then inspects the body; a rejection or throw
from it flows into `.catch`, which deletes again (a no-op) and classifies
the error.  On transport failure only `.catch` runs. -/
def Http.settle (st : Http) (requestID : Nat) (outcome : TransportOutcome) :
    Http × Settlement :=
  match outcome with
  | .success data =>
      let st1 : Http := ⟨st.currentId, mapDelete st.requestMap requestID⟩
      match thenBody data with
      | .ok (.resolvedWith v) => (st1, .resolved v)
      | .ok (.rejectedError e) =>
          (⟨st1.currentId, mapDelete st1.requestMap requestID⟩,
            catchBody (.httpErrorFromThen e))
      | .error e =>
          (⟨st1.currentId, mapDelete st1.requestMap requestID⟩,
            catchBody (.thrownInThen e))
  | .failure e =>
      (⟨st.currentId, mapDelete st.requestMap requestID⟩,
        catchBody (.fromTransport e))

/-- End-to-end view of one `request` call: the synchronous dispatch step
followed by settlement on the given transport outcome. -/
structure RequestOut where
  state : Http
  requestID : Nat
  config : AxiosRequestConfig
  settlement : Settlement
deriving Repr

/-- `Http.request` on one transport outcome: dispatch, then settle. -/
def Http.request (st : Http) (method url : String)
    (options : AxiosRequestConfig) (transport : TransportOutcome) : RequestOut :=
  let d := st.requestDispatch method url options
  let s := d.state.settle d.requestID transport
  ⟨s.1, d.requestID, d.config, s.2⟩

/-- One operation performed on an `Http` instance during its lifetime:
the synchronous dispatch step of a `request` call, the settlement of an
earlier request, or a `dispose` call. -/
inductive Op where
  | reqOp (method url : String) (options : AxiosRequestConfig)
  | settleOp (requestID : Nat) (outcome : TransportOutcome)
  | disposeOp (message : Option String)

/-- State transition of one operation. -/
def stepState (st : Http) : Op → Http
  | .reqOp m u o => (st.requestDispatch m u o).state
  | .settleOp i oc => (st.settle i oc).1
  | .disposeOp msg => (st.dispose msg).1

/-- Run a sequence of operations. -/
def runOps (st : Http) : List Op → Http
  | [] => st
  | op :: rest => runOps (stepState st op) rest

/-- The request identifiers assigned by the `reqOp` steps of a sequence of
operations, in call order. -/
def assignedIds (st : Http) : List Op → List Nat
  | [] => []
  | .reqOp m u o :: rest =>
      (st.requestDispatch m u o).requestID ::
        assignedIds (stepState st (.reqOp m u o)) rest
  | .settleOp i oc :: rest => assignedIds (stepState st (.settleOp i oc)) rest
  | .disposeOp msg :: rest => assignedIds (stepState st (.disposeOp msg)) rest

/-- Function values reachable from the `useApi` hook's fifth tuple element:
`cancelCallback` is the memoized `() => client.dispose.bind(client)`, and
`disposeBound` is the value `client.dispose.bind(client)` it returns. -/
inductive JsFun where
  | cancelCallback
  | disposeBound
deriving Repr, DecidableEq

/-- Invoking a `JsFun` on the client's state with an argument.  The body of
`cancelCallback` is the single expression `client.dispose.bind(client)`:
`bind` only constructs the bound function value, so the invocation performs
no cancel call, leaves the state unchanged, discards its argument (the
callback has no parameter) and returns `disposeBound`.  Invoking
`disposeBound` itself runs `dispose`. -/
def invokeJsFun : JsFun → Http → Option String → Http × List CancelCall × Option JsFun
  | .cancelCallback, st, _ => (st, [], some .disposeBound)
  | .disposeBound, st, msg =>
      let d := st.dispose msg
      (d.1, d.2, none)

/-- Bodies on which the envelope shape check completes and returns false:
every value except `null`/`undefined` (whose property read throws) and
objects carrying a numeric `result` field (the envelopes). -/
def nonEnvelopeNonNullish (b : Body) : Bool :=
  match b with
  | .null => false
  | .undefinedV => false
  | .str _ => true
  | .num _ => true
  | .boolV _ => true
  | .arr _ => true
  | .obj fields =>
      match (fields.lookup "result").getD .undefinedV with
      | .num _ => false
      | _ => true

/-- Options carrying a caller-supplied cancel token, for concrete runs. -/
def tokenConfig : AxiosRequestConfig :=
  ⟨none, none, none, some (CancelToken.callerToken 5), none, none⟩

/-- Options overriding the timeout, for concrete runs. -/
def timeoutConfig : AxiosRequestConfig :=
  ⟨none, none, some 5000, none, none, none⟩

theorem mapDelete_idem (m : List (Nat × CancelTokenSource)) (k : Nat) :
    mapDelete (mapDelete m k) k = mapDelete m k := by
  induction m with
  | nil => rfl
  | cons p rest ih =>
      by_cases h : p.1 = k
      · simp [mapDelete, h, ih]
      · simp [mapDelete, h, ih]

theorem mapDelete_not_mem (m : List (Nat × CancelTokenSource)) (k : Nat) :
    ((mapDelete m k).all (fun p => p.1 != k)) = true := by
  induction m with
  | nil => rfl
  | cons p rest ih =>
      by_cases h : p.1 = k <;> simp [mapDelete, h, ih]

theorem settle_fst (st : Http) (i : Nat) (oc : TransportOutcome) :
    (st.settle i oc).1 = ⟨st.currentId, mapDelete st.requestMap i⟩ := by
  cases oc with
  | success data =>
      cases h : thenBody data with
      | ok t => cases t <;> simp [Http.settle, h, mapDelete_idem]
      | error e => simp [Http.settle, h, mapDelete_idem]
  | failure e => rfl

theorem settle_success_snd (st : Http) (i : Nat) (data : Body) :
    (st.settle i (.success data)).2
      = (match thenBody data with
        | .ok (.resolvedWith v) => Settlement.resolved v
        | .ok (.rejectedError e) => catchBody (.httpErrorFromThen e)
        | .error e => catchBody (.thrownInThen e)) := by
  cases h : thenBody data with
  | ok t => cases t <;> simp [Http.settle, h]
  | error e => simp [Http.settle, h]

theorem request_state_eq (st : Http) (m u : String) (o : AxiosRequestConfig)
    (tr : TransportOutcome) :
    (st.request m u o tr).state
      = ⟨(st.requestDispatch m u o).state.currentId,
          mapDelete (st.requestDispatch m u o).state.requestMap
            (st.request m u o tr).requestID⟩ := by
  have h : (st.request m u o tr).state
      = ((st.requestDispatch m u o).state.settle
          (st.requestDispatch m u o).requestID tr).1 := rfl
  rw [h, settle_fst]
  rfl

theorem requestDispatch_state_currentId (st : Http) (m u : String)
    (o : AxiosRequestConfig) :
    (st.requestDispatch m u o).state.currentId = st.currentId + 1 := rfl

theorem requestDispatch_requestID_eq (st : Http) (m u : String)
    (o : AxiosRequestConfig) :
    (st.requestDispatch m u o).requestID = st.currentId + 1 := rfl

theorem assignedIds_sorted (st : Http) (ops : List Op) :
    List.Pairwise (· < ·) (assignedIds st ops)
    ∧ ∀ i ∈ assignedIds st ops, st.currentId < i := by
  induction ops generalizing st with
  | nil => simp [assignedIds]
  | cons op rest ih =>
      cases op with
      | reqOp m u o =>
          have h := ih ((st.requestDispatch m u o).state)
          have hcur : (st.requestDispatch m u o).state.currentId = st.currentId + 1 := rfl
          have hid : (st.requestDispatch m u o).requestID = st.currentId + 1 := rfl
          constructor
          · simp only [assignedIds, stepState]
            refine List.pairwise_cons.2 ⟨?_, h.1⟩
            intro j hj
            have h2 := h.2 j hj
            omega
          · intro i hi
            simp only [assignedIds, stepState, List.mem_cons] at hi
            rcases hi with h1 | h2
            · omega
            · have := h.2 i h2
              omega
      | settleOp i oc =>
          have h := ih ((st.settle i oc).1)
          have hcur : ((st.settle i oc).1).currentId = st.currentId := by
            rw [settle_fst]
          constructor
          · simpa only [assignedIds, stepState] using h.1
          · intro j hj
            simp only [assignedIds, stepState] at hj
            have := h.2 j hj
            omega
      | disposeOp msg =>
          have h := ih st
          constructor
          · simpa only [assignedIds, stepState, Http.dispose] using h.1
          · intro j hj
            simp only [assignedIds, stepState, Http.dispose] at hj
            exact h.2 j hj

theorem thenBody_envelope (fields : List (String × Body)) (r : Int)
    (hres : fields.lookup "result" = some (Body.num r)) :
    thenBody (.obj fields)
      = .ok (if r = -1 then ThenOut.resolvedWith ((fields.lookup "data").getD .undefinedV)
             else ThenOut.rejectedError ⟨"请求错误", some r⟩) := by
  simp only [thenBody, isResponseObject, getProp, jsTypeof, hres, strictEqNum,
    asNumber, Bind.bind, Except.bind, Except.map, Pure.pure, Except.pure]
  by_cases h : r = -1 <;> simp [h]

theorem thenBody_non_envelope (body : Body) (h : nonEnvelopeNonNullish body = true) :
    thenBody body = .ok (.resolvedWith body) := by
  cases body with
  | null => exact Bool.noConfusion h
  | undefinedV => exact Bool.noConfusion h
  | str s => rfl
  | num n => rfl
  | boolV b => rfl
  | arr xs => rfl
  | obj fields =>
      simp only [nonEnvelopeNonNullish] at h
      cases hl : (fields.lookup "result").getD .undefinedV <;>
        rw [hl] at h <;>
        simp [thenBody, isResponseObject, getProp, jsTypeof, hl, Bind.bind,
          Except.bind, Except.map, Pure.pure, Except.pure] at h ⊢

/-- C1: for a transport-successful request whose body matches the envelope
shape (an object with a numeric `result` field), `result == -1` resolves
the returned promise with the envelope's inner `data` field, and any other
numeric `result` rejects it with an `HttpError` whose code is that value
and whose message is the fixed generic message `"请求错误"`. -/
theorem request_envelope_result_behavior (st : Http) (m u : String)
    (o : AxiosRequestConfig) (fields : List (String × Body)) (r : Int)
    (hres : fields.lookup "result" = some (Body.num r)) :
    (r = -1 → (st.request m u o (.success (.obj fields))).settlement
        = .resolved ((fields.lookup "data").getD .undefinedV))
    ∧ (r ≠ -1 → (st.request m u o (.success (.obj fields))).settlement
        = .rejectedHttpError ⟨"请求错误", some r⟩) := by
  have hset : (st.request m u o (.success (.obj fields))).settlement
      = ((st.requestDispatch m u o).state.settle
          (st.requestDispatch m u o).requestID (.success (.obj fields))).2 := rfl
  constructor
  · intro h
    rw [hset, settle_success_snd, thenBody_envelope fields r hres, if_pos h]
  · intro h
    rw [hset, settle_success_snd, thenBody_envelope fields r hres, if_neg h]
    rfl

theorem request_envelope_result_behavior_witness :
    (Http.request Http.init "GET" "/u" emptyConfig
        (.success (.obj [("result", .num (-1)), ("data", .str "X")]))).settlement
      = .resolved (.str "X")
    ∧ (Http.request Http.init "GET" "/u" emptyConfig
        (.success (.obj [("result", .num 7), ("data", .null)]))).settlement
      = .rejectedHttpError ⟨"请求错误", some 7⟩ := by
  constructor
  · exact (request_envelope_result_behavior Http.init "GET" "/u" emptyConfig
      [("result", .num (-1)), ("data", .str "X")] (-1) rfl).1 rfl
  · exact (request_envelope_result_behavior Http.init "GET" "/u" emptyConfig
      [("result", .num 7), ("data", .null)] 7 rfl).2 (by decide)

/-- C2: over any operation sequence on a fresh `Http` instance, the request
identifiers assigned by the dispatch steps are strictly increasing in call
order, pairwise distinct — never reused over the instance's lifetime — and
all greater than zero. -/
theorem request_ids_distinct_increasing (ops : List Op) :
    List.Pairwise (· < ·) (assignedIds Http.init ops)
    ∧ (assignedIds Http.init ops).Nodup
    ∧ (assignedIds Http.init ops).all (fun i => decide (0 < i)) = true := by
  have h := assignedIds_sorted Http.init ops
  refine ⟨h.1, List.Pairwise.imp (fun hab => Nat.ne_of_lt hab) h.1, ?_⟩
  rw [List.all_eq_true]
  intro i hi
  exact decide_eq_true (h.2 i hi)

/-- C3: however a request settles (data resolution, raw-body resolution,
application-error rejection, cancellation rejection, transport-error
rejection, or propagation of an unrecognized error), the final registry is
exactly the post-dispatch registry with that request's identifier deleted:
the removal is not skipped on any path, and the identifier is absent from
the registry once the promise has settled. -/
theorem request_settlement_removes_registry_entry (st : Http) (m u : String)
    (o : AxiosRequestConfig) (tr : TransportOutcome) :
    (st.request m u o tr).state.requestMap
      = mapDelete (st.requestDispatch m u o).state.requestMap
          (st.request m u o tr).requestID
    ∧ ((st.request m u o tr).state.requestMap.all
        (fun p => p.1 != (st.request m u o tr).requestID)) = true := by
  have h := request_state_eq st m u o tr
  constructor
  · rw [h]
  · rw [h]
    exact mapDelete_not_mem _ _

/-- C4: `dispose(message?)` leaves the state (counter and registry)
unchanged and performs exactly one cancel call per registry entry, in
registry order, each call carrying that entry's source and the optional
message; with an empty registry the call list is empty, so the call is a
no-op. -/
theorem dispose_cancels_each_entry_without_mutation (st : Http)
    (message : Option String) :
    (st.dispose message).1 = st
    ∧ ((st.dispose message).2.length = st.requestMap.length)
    ∧ ((st.dispose message).2.map CancelCall.source) = st.requestMap.map Prod.snd
    ∧ ((st.dispose message).2.map CancelCall.message)
        = st.requestMap.map (fun _ => message) := by
  refine ⟨rfl, ?_, ?_, ?_⟩ <;> simp [Http.dispose, Function.comp_def]

/-- C5: when the caller already supplied a cancel token, the dispatch step
of `request` leaves the registry untouched (no new handle, no insertion);
when no token was supplied, the registry becomes exactly the old registry
with a fresh source registered under the newly assigned identifier. -/
theorem request_token_registration_cases (st : Http) (m u : String)
    (o : AxiosRequestConfig) :
    (o.cancelToken.isSome = true →
        (st.requestDispatch m u o).state.requestMap = st.requestMap)
    ∧ (o.cancelToken = none →
        (st.requestDispatch m u o).state.requestMap
          = mapSet st.requestMap (st.requestDispatch m u o).requestID
              ⟨(st.requestDispatch m u o).requestID⟩) := by
  constructor
  · intro h
    cases hc : o.cancelToken with
    | none => rw [hc] at h; exact Bool.noConfusion h
    | some t => simp [Http.requestDispatch, hc]
  · intro h
    simp [Http.requestDispatch, h]

theorem request_token_registration_cases_witness :
    (Http.requestDispatch ⟨0, []⟩ "GET" "/a" tokenConfig).state.requestMap = []
    ∧ (Http.requestDispatch ⟨0, []⟩ "GET" "/a" emptyConfig).state.requestMap
        = mapSet [] 1 ⟨1⟩ := by
  constructor
  · exact (request_token_registration_cases ⟨0, []⟩ "GET" "/a" tokenConfig).1 rfl
  · exact (request_token_registration_cases ⟨0, []⟩ "GET" "/a" emptyConfig).2 rfl

/-- C6 as stated is false for a `null` body: the claim includes `null`
among the non-enveloped bodies that resolve with the raw body unchanged,
but on `null` the shape check's property read throws, so the promise
rejects with the `TypeError` instead of resolving with `null`. -/
theorem null_body_not_raw_passthrough :
    (Http.request Http.init "GET" "/u" emptyConfig (.success Body.null)).settlement
        ≠ Settlement.resolved Body.null
    ∧ (Http.request Http.init "GET" "/u" emptyConfig (.success Body.null)).settlement
        = Settlement.rejectedRaw
            (.typeError "Cannot read properties of null (reading result)") := by
  constructor
  · intro h
    exact Settlement.noConfusion h
  · rfl

/-- C6 amended: for every transport-successful request whose body is a
value on which the envelope shape check completes and fails — strings,
numbers, booleans, arrays, and objects without a numeric `result` field,
but not `null` (or `undefined`), whose property read throws — the returned
promise resolves with the raw body unchanged; in particular the string
`"raw"` resolves with `"raw"`. -/
theorem non_envelope_body_resolves_raw (st : Http) (m u : String)
    (o : AxiosRequestConfig) (body : Body)
    (h : nonEnvelopeNonNullish body = true) :
    (st.request m u o (.success body)).settlement = .resolved body := by
  have hset : (st.request m u o (.success body)).settlement
      = ((st.requestDispatch m u o).state.settle
          (st.requestDispatch m u o).requestID (.success body)).2 := rfl
  rw [hset, settle_success_snd, thenBody_non_envelope body h]

theorem non_envelope_body_resolves_raw_witness :
    (Http.request Http.init "GET" "/u" emptyConfig (.success (.str "raw"))).settlement
      = .resolved (.str "raw") :=
  non_envelope_body_resolves_raw Http.init "GET" "/u" emptyConfig (.str "raw") rfl

/-- C7: a transport-level cancellation rejects the promise with an
`HttpError` with no code and the fixed cancellation message (whatever
message the cancel itself carried); a transport error rejects with an
`HttpError` with no code whose message is the remote status text when one
is present and nonempty, and the underlying error's message otherwise;
any other thrown value is rejected unchanged, not re-wrapped.  Every
failure surfaces as a settlement of the returned promise — none is thrown
from the dispatch step, which is a total function. -/
theorem transport_failure_rejection_taxonomy (st : Http) (m u : String)
    (o : AxiosRequestConfig) :
    (∀ msg, (st.request m u o (.failure (.cancelled msg))).settlement
        = .rejectedHttpError ⟨"请求被取消", none⟩)
    ∧ (∀ em, (st.request m u o (.failure (.axiosError none em))).settlement
        = .rejectedHttpError ⟨em, none⟩)
    ∧ (∀ s em, s ≠ "" →
        (st.request m u o (.failure (.axiosError (some s) em))).settlement
          = .rejectedHttpError ⟨s, none⟩)
    ∧ (∀ em, (st.request m u o (.failure (.axiosError (some "") em))).settlement
        = .rejectedHttpError ⟨em, none⟩)
    ∧ (∀ e, (st.request m u o (.failure (.thrownOther e))).settlement
        = .rejectedRaw e) := by
  refine ⟨fun msg => rfl, fun em => rfl, ?_, fun em => rfl, fun e => rfl⟩
  intro s em h
  show Settlement.rejectedHttpError ⟨orFalsy (some s) em, none⟩ = _
  simp [orFalsy, h]

theorem transport_failure_rejection_taxonomy_witness :
    (Http.request Http.init "GET" "/u" emptyConfig
        (.failure (.axiosError (some "Bad Gateway") "m"))).settlement
      = .rejectedHttpError ⟨"Bad Gateway", none⟩
    ∧ (Http.request Http.init "GET" "/u" emptyConfig
        (.failure (.cancelled (some "stop")))).settlement
      = .rejectedHttpError ⟨"请求被取消", none⟩ :=
  ⟨(transport_failure_rejection_taxonomy Http.init "GET" "/u" emptyConfig).2.2.1
      "Bad Gateway" "m" (by decide),
    (transport_failure_rejection_taxonomy Http.init "GET" "/u" emptyConfig).1
      (some "stop")⟩

/-- C8: the dispatched config is the shallow merge of the defaults (the
given method, the given url, a 60000 ms timeout) with the caller options:
every caller-supplied field wins over the corresponding default, the other
caller fields pass through untouched, and when the caller supplies no
timeout the dispatched timeout is exactly 60000 milliseconds. -/
theorem request_config_shallow_merge (st : Http) (m u : String)
    (o : AxiosRequestConfig) :
    ((st.requestDispatch m u o).config.method = some (o.method.getD m))
    ∧ ((st.requestDispatch m u o).config.url = some (o.url.getD u))
    ∧ ((st.requestDispatch m u o).config.timeout = some (o.timeout.getD 60000))
    ∧ ((st.requestDispatch m u o).config.data = o.data)
    ∧ ((st.requestDispatch m u o).config.headers = o.headers)
    ∧ (o.timeout = none → (st.requestDispatch m u o).config.timeout = some 60000) := by
  refine ⟨rfl, rfl, rfl, rfl, rfl, ?_⟩
  intro h
  simp [Http.requestDispatch, h]

theorem request_config_shallow_merge_witness :
    (Http.requestDispatch ⟨0, []⟩ "GET" "/u" emptyConfig).config.timeout = some 60000
    ∧ (Http.requestDispatch ⟨0, []⟩ "GET" "/u" timeoutConfig).config.timeout
        = some 5000 := by
  constructor
  · exact (request_config_shallow_merge ⟨0, []⟩ "GET" "/u" emptyConfig).2.2.2.2.2 rfl
  · exact (request_config_shallow_merge ⟨0, []⟩ "GET" "/u" timeoutConfig).2.2.1

/-- C9: a transport-successful request with a `null` body rejects rather
than resolving with `null`: the shape check treats `null` as an object
(`typeof null` is `"object"`), its `result` property read throws a
`TypeError`, and that `TypeError` is propagated unchanged as the rejection
reason; the registry entry is still removed. -/
theorem null_body_rejects_typeerror (st : Http) (m u : String)
    (o : AxiosRequestConfig) :
    jsTypeof Body.null = "object"
    ∧ isResponseObject Body.null
        = .error (.typeError "Cannot read properties of null (reading result)")
    ∧ (st.request m u o (.success Body.null)).settlement
        = Settlement.rejectedRaw
            (.typeError "Cannot read properties of null (reading result)")
    ∧ ((st.request m u o (.success Body.null)).state.requestMap.all
        (fun p => p.1 != (st.request m u o (.success Body.null)).requestID)) = true := by
  refine ⟨rfl, rfl, rfl, ?_⟩
  rw [request_state_eq]
  exact mapDelete_not_mem _ _

/-- C10: invoking the `cancel` function returned as the fifth element of
`useApi` performs no cancellation at all: its body is
`client.dispose.bind(client)`, which builds the bound `dispose` function
and returns it without calling it, so the invocation leaves the state
unchanged and issues no cancel call for any message — whereas actually
invoking the bound `dispose` on a nonempty registry would issue cancel
calls. -/
theorem useApi_cancel_invokes_nothing (st : Http) (message : Option String) :
    invokeJsFun .cancelCallback st message = (st, [], some .disposeBound)
    ∧ (st.requestMap ≠ [] →
        (invokeJsFun .disposeBound st message).2.1 ≠ []) := by
  refine ⟨rfl, ?_⟩
  intro h
  simpa [invokeJsFun, Http.dispose] using h

theorem useApi_cancel_invokes_nothing_witness :
    invokeJsFun .cancelCallback ⟨1, [(1, ⟨1⟩)]⟩ (some "stop")
        = (⟨1, [(1, ⟨1⟩)]⟩, [], some .disposeBound)
    ∧ (invokeJsFun .disposeBound ⟨1, [(1, ⟨1⟩)]⟩ (some "stop")).2.1 ≠ [] :=
  ⟨(useApi_cancel_invokes_nothing ⟨1, [(1, ⟨1⟩)]⟩ (some "stop")).1,
    (useApi_cancel_invokes_nothing ⟨1, [(1, ⟨1⟩)]⟩ (some "stop")).2 (by decide)⟩
